import Mathlib

/-!
Shallow embedding of the booking & scheduling engine of the gym microservice
(`workout.service.ts` / `coach.service.ts` / `feedback.service.ts`).

Time is modelled as milliseconds since the epoch (`Int`), with a fixed local
timezone offset `tz` (ms to add to a UTC instant to read the local wall clock;
no DST, matching the repository's single-timezone assumption).  JavaScript
`Date` operations used by the code are embedded as arithmetic on this timeline:
`setHours(0,0,0,0)` is `localMidnight`, `setHours(h,m,0,0)` is `setHM`.
Mongo documents become Lean structures in in-memory lists; `ObjectId`s are
`Nat`s, freshly drawn from a `nextId` counter.  The external user directory
(`UserService`) is a pair of id lists in the environment.  Fallible service
methods return `Except HttpError`, mirroring the `HttpError(status, message)`
class; methods that mutate state return the post-state alongside the result,
with the pre-state returned unchanged on any error (the code's transactions
roll all writes back).
-/

def dayMs : Int := 86400000
def hourMs : Int := 3600000
def minuteMs : Int := 60000

/-- `d.setHours(0,0,0,0)`: the instant of local midnight of the day containing `t`. -/
def localMidnight (tz t : Int) : Int := dayMs * ((t + tz).fdiv dayMs) - tz

/-- `d.setHours(h,m,0,0)`: local `h:m` on the day containing `t` (hours ≥ 24 roll over,
exactly as in JavaScript). -/
def setHM (tz t : Int) (h m : Nat) : Int :=
  localMidnight tz t + (h : Int) * hourMs + (m : Int) * minuteMs

structure HttpError where
  statusCode : Nat
  message : String
deriving DecidableEq, Repr

inductive BookingState where
  | scheduled
  | cancelled
  | waiting_for_feedback
  | completed
deriving DecidableEq, Repr

structure TimeSlot where
  id : Nat
  /-- `startTime` string "HH:MM", parsed as the (hours, minutes) pair the code
  obtains from `split(":").map(Number)`. -/
  startTime : Nat × Nat
  endTime : Nat × Nat
deriving DecidableEq, Repr

structure Workout where
  id : Nat
  workoutType : Nat
  coachId : Nat
deriving DecidableEq, Repr

structure Booking where
  id : Nat
  clientId : Nat
  coachId : Nat
  workoutId : Nat
  timeSlotId : Nat
  date : Int
  state : BookingState
  clientFeedback : Option Nat
  coachFeedback : Option Nat
  createdAt : Int
deriving DecidableEq, Repr

structure FeedbackEntry where
  message : String
  rating : Nat
  timestamp : Int
deriving DecidableEq, Repr

structure FeedbackDoc where
  id : Nat
  fromId : Nat
  toId : Nat
  history : List FeedbackEntry
deriving DecidableEq, Repr

structure Store where
  timeSlots : List TimeSlot
  workouts : List Workout
  bookings : List Booking
  feedbacks : List FeedbackDoc
  nextId : Nat
deriving DecidableEq, Repr

/-- Ambient environment: the clock, the timezone, the local midnight of day 1 of
the current month (anchoring JavaScript's `new Date(year, month, day)` for the
bare-day-number input form), and the external user directory. -/
structure Env where
  nowMs : Int
  tz : Int
  monthStart : Int
  coaches : List Nat
  users : List Nat
deriving DecidableEq, Repr

/-- A date value as it reaches the services, classified by the parsing branch it
takes.  `ymd k` stands for a `"YYYY-MM-DD"` string naming the calendar day whose
UTC midnight is `k * dayMs` (which is what `new Date("YYYY-MM-DD")` parses to);
`dayNum d` is a bare digit string; `dateTimeStr t` is any other string that
`new Date(...)` parses to the instant `t`; `malformed` parses to `NaN`. -/
inductive DateInput where
  | jsDate (t : Int)
  | dayNum (d : Nat)
  | ymd (k : Int)
  | dateTimeStr (t : Int)
  | malformed
deriving DecidableEq, Repr

/-- The instant `new Date(...)` yields for a `DateInput` (`none` = `NaN`). -/
def jsParse (env : Env) : DateInput → Option Int
  | .jsDate t => some t
  | .dayNum d => some (env.monthStart + ((d : Int) - 1) * dayMs)
  | .ymd k => some (k * dayMs)
  | .dateTimeStr t => some t
  | .malformed => none

/-- `WorkoutService.parseAndValidateDate`: parses, rejects `NaN`, rejects dates
whose local-midnight normalization is before today's local midnight, and
returns the parsed (NOT normalized) instant. -/
def workoutParseAndValidateDate (env : Env) (date : DateInput) : Except HttpError Int :=
  match jsParse env date with
  | none => .error ⟨400, "Invalid date format"⟩
  | some bookingDate =>
    if localMidnight env.tz bookingDate < localMidnight env.tz env.nowMs then
      .error ⟨400, "Cannot book a workout for a past date"⟩
    else .ok bookingDate

/-- `CoachService.parseAndValidateDate`: parses the three string forms (with a
dedicated `YYYY-MM-DD` branch building `new Date(y, m-1, d)`, a local
midnight), rejects only `NaN`, and performs no past-date check. -/
def coachParseAndValidateDate (env : Env) (date : DateInput) : Except HttpError Int :=
  match date with
  | .jsDate t => .ok t
  | .dayNum d => .ok (env.monthStart + ((d : Int) - 1) * dayMs)
  | .ymd k => .ok (k * dayMs - env.tz)
  | .dateTimeStr t => .ok t
  | .malformed => .error ⟨400, "Invalid date format"⟩

/-- `WorkoutService.isTimeSlotPassed(date, startTime)`: true only when the
booking date is today and `now` is strictly after the slot's start time today. -/
def isTimeSlotPassed (env : Env) (date : Int) (startTime : Nat × Nat) : Bool :=
  let today := localMidnight env.tz env.nowMs
  let bookingDate := localMidnight env.tz date
  if bookingDate = today then
    decide (env.nowMs > setHM env.tz env.nowMs startTime.1 startTime.2)
  else false

def findWorkoutFor (st : Store) (workoutId coachId : Nat) : Option Workout :=
  st.workouts.find? (fun w => decide (w.id = workoutId ∧ w.coachId = coachId))

def findTimeSlot (st : Store) (timeSlotId : Nat) : Option TimeSlot :=
  st.timeSlots.find? (fun s => decide (s.id = timeSlotId))

def findBooking (st : Store) (bookingId : Nat) : Option Booking :=
  st.bookings.find? (fun b => decide (b.id = bookingId))

def findFeedbackDoc (st : Store) (feedbackId : Nat) : Option FeedbackDoc :=
  st.feedbacks.find? (fun f => decide (f.id = feedbackId))

/-- `startOfDay`: the booking date at `setHours(0,0,0,0)`. -/
def startOfDayOf (tz t : Int) : Int := localMidnight tz t

/-- `endOfDay`: the booking date at `setHours(23,59,59,999)`. -/
def endOfDayOf (tz t : Int) : Int := localMidnight tz t + 86399999

/-- The `BookingModel.find` query guarding the coach double-booking check:
non-cancelled bookings of `coachId` at `timeSlotId` with `date` in
`[startOfDay, endOfDay)`. -/
def coachConflicts (st : Store) (coachId timeSlotId : Nat) (startOfDay endOfDay : Int) :
    List Booking :=
  st.bookings.filter (fun b => decide (b.coachId = coachId ∧ b.timeSlotId = timeSlotId ∧
    startOfDay ≤ b.date ∧ b.date < endOfDay ∧ b.state ≠ .cancelled))

/-- Same query keyed by the client. -/
def clientConflicts (st : Store) (clientId timeSlotId : Nat) (startOfDay endOfDay : Int) :
    List Booking :=
  st.bookings.filter (fun b => decide (b.clientId = clientId ∧ b.timeSlotId = timeSlotId ∧
    startOfDay ≤ b.date ∧ b.date < endOfDay ∧ b.state ≠ .cancelled))

/-- The three writes of `bookWorkout`'s `withTransaction` block may each fail. -/
inductive SavePoint where
  | clientFb
  | coachFb
  | bookingDoc
deriving DecidableEq, Repr

/-- `WorkoutService.bookWorkout`.  `fails` is the oracle saying which of the
three `save({ session })` calls inside `withTransaction` throw; any failure
aborts the transaction, so the pre-state is returned unchanged (a thrown
non-`HttpError` is mapped to a 500 by the catch block). -/
def bookWorkout (env : Env) (fails : SavePoint → Bool) (st : Store)
    (clientId workoutId coachId timeSlotId : Nat) (date : DateInput) :
    Store × Except HttpError Booking :=
  match workoutParseAndValidateDate env date with
  | .error e => (st, .error e)
  | .ok bookingDate =>
    if ¬ env.coaches.contains coachId then (st, .error ⟨404, "Coach not found"⟩)
    else match findWorkoutFor st workoutId coachId with
    | none => (st, .error ⟨404, "Workout not found or does not belong to the specified coach"⟩)
    | some _ =>
      match findTimeSlot st timeSlotId with
      | none => (st, .error ⟨404, "Time slot not found"⟩)
      | some timeSlot =>
        if isTimeSlotPassed env bookingDate timeSlot.startTime then
          (st, .error ⟨400, "Cannot book a time slot that has already passed"⟩)
        else
          if coachConflicts st coachId timeSlotId (startOfDayOf env.tz bookingDate)
              (endOfDayOf env.tz bookingDate) ≠ [] then
            (st, .error ⟨409, "Coach already has a booking at this time slot"⟩)
          else if clientConflicts st clientId timeSlotId (startOfDayOf env.tz bookingDate)
              (endOfDayOf env.tz bookingDate) ≠ [] then
            (st, .error ⟨409, "You already have a booking at this time slot"⟩)
          else if fails .clientFb ∨ fails .coachFb ∨ fails .bookingDoc then
            (st, .error ⟨500, "Failed to book workout"⟩)
          else
            let clientFb : FeedbackDoc := ⟨st.nextId, clientId, coachId, []⟩
            let coachFb : FeedbackDoc := ⟨st.nextId + 1, coachId, clientId, []⟩
            let booking : Booking :=
              ⟨st.nextId + 2, clientId, coachId, workoutId, timeSlotId, bookingDate,
                .scheduled, some clientFb.id, some coachFb.id, env.nowMs⟩
            ({ st with feedbacks := st.feedbacks ++ [clientFb, coachFb],
                       bookings := st.bookings ++ [booking],
                       nextId := st.nextId + 3 }, .ok booking)

/-- `WorkoutService.cancelBooking`. -/
def cancelBooking (env : Env) (st : Store) (bookingId userId : Nat) :
    Store × Except HttpError Booking :=
  match findBooking st bookingId with
  | none => (st, .error ⟨404, "Booking not found"⟩)
  | some booking =>
    if ¬ env.users.contains userId then (st, .error ⟨404, "User not found"⟩)
    else if ¬ (booking.clientId = userId ∨ booking.coachId = userId) then
      (st, .error ⟨403, "Not authorized to cancel this booking"⟩)
    else if booking.state = .cancelled then
      (st, .error ⟨400, "Booking is already cancelled"⟩)
    else if booking.state = .completed then
      (st, .error ⟨400, "Cannot cancel a completed booking"⟩)
    else if booking.state = .waiting_for_feedback then
      (st, .error ⟨400, "Cannot cancel a booking that is waiting for feedback"⟩)
    else
      if (booking.date - env.nowMs).fdiv hourMs < 12 then
        (st, .error ⟨400, "Cannot cancel a booking less than 12 hours before the date"⟩)
      else
        ({ st with bookings :=
            st.bookings.map (fun b => if b.id = bookingId then
              { booking with state := BookingState.cancelled } else b) },
          .ok { booking with state := BookingState.cancelled })

/-- `FeedbackService.addFeedback`.  All writes happen inside one transaction;
they are modelled as a single state update (any earlier `throw` leaves the
pre-state untouched). -/
def addFeedback (env : Env) (st : Store) (userId bookingId : Nat)
    (message : String) (rating : Nat) : Store × Except HttpError FeedbackEntry :=
  match findBooking st bookingId with
  | none => (st, .error ⟨404, "Booking not found"⟩)
  | some bookingDetails =>
    if ¬ (userId = bookingDetails.clientId ∨ userId = bookingDetails.coachId) then
      (st, .error ⟨403, "User is not allowed to give feedback for this booking"⟩)
    else if bookingDetails.state = .completed then
      (st, .error ⟨400, "Feedback can only be given for completed bookings"⟩)
    else match findTimeSlot st bookingDetails.timeSlotId with
    | none =>
      -- `.populate("timeSlotId")` yields null; reading `.endTime` throws a
      -- TypeError which the catch block wraps into a 400.
      (st, .error ⟨400, "Cannot read properties of null"⟩)
    | some timeSlot =>
      if setHM env.tz bookingDetails.date timeSlot.endTime.1 timeSlot.endTime.2 >
          env.nowMs then
        (st, .error ⟨400, "Feedback can only be given after the booking has ended"⟩)
      else
        match (if userId = bookingDetails.clientId then bookingDetails.clientFeedback
               else bookingDetails.coachFeedback) with
        | none =>
          -- lazily create the directional ledger and attach it to the booking
          if userId = bookingDetails.clientId then
            ({ st with
                feedbacks := st.feedbacks ++
                  [⟨st.nextId, bookingDetails.clientId, bookingDetails.coachId,
                    [⟨message, rating, env.nowMs⟩]⟩],
                bookings := st.bookings.map (fun b => if b.id = bookingId then
                  { bookingDetails with clientFeedback := some st.nextId,
                                        state := BookingState.completed } else b),
                nextId := st.nextId + 1 }, .ok ⟨message, rating, env.nowMs⟩)
          else
            ({ st with
                feedbacks := st.feedbacks ++
                  [⟨st.nextId, bookingDetails.coachId, bookingDetails.clientId,
                    [⟨message, rating, env.nowMs⟩]⟩],
                bookings := st.bookings.map (fun b => if b.id = bookingId then
                  { bookingDetails with coachFeedback := some st.nextId,
                                        state := BookingState.completed } else b),
                nextId := st.nextId + 1 }, .ok ⟨message, rating, env.nowMs⟩)
        | some fbId =>
          match findFeedbackDoc st fbId with
          | none =>
            (st, .error ⟨404, if userId = bookingDetails.clientId then
                                "Client feedback document not found"
                              else "Coach feedback document not found"⟩)
          | some fbDoc =>
            ({ st with
                feedbacks := st.feedbacks.map (fun f => if f.id = fbId then
                  { fbDoc with history := fbDoc.history ++ [⟨message, rating, env.nowMs⟩] }
                  else f),
                bookings := st.bookings.map (fun b => if b.id = bookingId then
                  { bookingDetails with state := BookingState.completed } else b) },
              .ok ⟨message, rating, env.nowMs⟩)

structure SlotWithStatus where
  id : Nat
  startTime : Nat × Nat
  endTime : Nat × Nat
  isBooked : Bool
deriving DecidableEq, Repr

/-- The states `CoachService.getCoachAvailableTimeSlots` treats as blocking a
slot (everything but `cancelled`). -/
def activeStates : List BookingState := [.scheduled, .completed, .waiting_for_feedback]

/-- `CoachService.getCoachAvailableTimeSlots`: every catalog slot with an
`isBooked` flag; a booking blocks a slot only when its `date` equals the query
date exactly and its state is not `cancelled`. -/
def getCoachAvailableTimeSlots (env : Env) (st : Store) (coachId : Nat) (date : Int) :
    Except HttpError (List SlotWithStatus) :=
  if ¬ env.coaches.contains coachId then .error ⟨404, "Coach not found"⟩
  else if st.timeSlots = [] then .error ⟨404, "No time slots available"⟩
  else
    let bookings := st.bookings.filter (fun b =>
      decide (b.coachId = coachId ∧ b.date = date ∧ b.state ∈ activeStates))
    .ok (st.timeSlots.map (fun s =>
      { id := s.id, startTime := s.startTime, endTime := s.endTime,
        isBooked := bookings.any (fun b =>
          decide (b.timeSlotId = s.id ∧ b.state ∈ activeStates)) }))

/-- Zero-padded "HH:MM" string order, as used by `.sort({ startTime: 1 })`. -/
def hmLe (a b : Nat × Nat) : Bool :=
  decide (a.1 < b.1) || (decide (a.1 = b.1) && decide (a.2 ≤ b.2))

def insertSlot (s : TimeSlot) : List TimeSlot → List TimeSlot
  | [] => [s]
  | t :: ts => if hmLe s.startTime t.startTime then s :: t :: ts else t :: insertSlot s ts

/-- Stable sort of the slot catalog by start time. -/
def sortSlots : List TimeSlot → List TimeSlot
  | [] => []
  | s :: ss => insertSlot s (sortSlots ss)

/-- The availability record `searchWorkoutUsingFilters` builds per matching
workout (coach-profile display fields omitted; ids kept). -/
structure AvailRecord where
  coachId : Nat
  workoutId : Nat
  activityId : Nat
  timeSlotId : Option Nat
  date : Int
  alternativeTimeSlots : List Nat
deriving DecidableEq, Repr

/-- The date handling at the top of `searchWorkoutUsingFilters`: absent dates
default to now (no past check); given dates are parsed like the booking path
and rejected when their local-midnight normalization is before today. -/
def searchParseDate (env : Env) : Option DateInput → Except HttpError Int
  | none => .ok env.nowMs
  | some d =>
    match jsParse env d with
    | none => .error ⟨400, "Invalid date format"⟩
    | some searchDate =>
      if localMidnight env.tz searchDate < localMidnight env.tz env.nowMs then
        .error ⟨400, "Date cannot be in the past"⟩
      else .ok searchDate

/-- The `validTimeSlots` computation of `searchWorkoutUsingFilters`: when the
(normalized) search date is today, slots whose start time has already passed
(in local wall-clock time) are dropped from the sorted catalog. -/
def validSlotsFor (env : Env) (st : Store) (searchDate : Int) : List TimeSlot :=
  if decide (localMidnight env.tz searchDate = localMidnight env.tz env.nowMs) then
    (sortSlots st.timeSlots).filter (fun s =>
      decide (setHM env.tz env.nowMs s.startTime.1 s.startTime.2 > env.nowMs))
  else sortSlots st.timeSlots

/-- `WorkoutService.searchWorkoutUsingFilters`. -/
def searchWorkoutUsingFilters (env : Env) (st : Store)
    (workoutId coachId timeSlotId : Option Nat) (date : Option DateInput) :
    Except HttpError (List AvailRecord) :=
  match searchParseDate env date with
  | .error e => .error e
  | .ok searchDate =>
    let formattedDate : Int := localMidnight env.tz searchDate
    if sortSlots st.timeSlots = [] then .error ⟨404, "No time slots available"⟩
    else
      let validTimeSlots : List TimeSlot := validSlotsFor env st searchDate
      if validTimeSlots = [] then .error ⟨404, "No available time slots for today"⟩
      else if (match timeSlotId with
               | some tid => (validTimeSlots.find? (fun s => decide (s.id = tid))).isNone
               | none => false : Bool) then
        .error ⟨404, "Selected time slot is not available"⟩
      else
        let workouts : List Workout := st.workouts.filter (fun w =>
          (match workoutId with | some wid => decide (w.workoutType = wid) | none => true) &&
          (match coachId with | some cid => decide (w.coachId = cid) | none => true))
        if workouts = [] then .error ⟨404, "No workouts found for the given filter"⟩
        else
          let bookings : List Booking := st.bookings.filter (fun b =>
            decide (formattedDate ≤ b.date ∧ b.date < formattedDate + dayMs ∧
              b.state ≠ .cancelled))
          let availableAlternativeTimeSlots : List TimeSlot := validTimeSlots.filter (fun s =>
            ! bookings.any (fun b => decide (b.timeSlotId = s.id)))
          if availableAlternativeTimeSlots = [] then
            .error ⟨404, "No available time slots for the selected date"⟩
          else if workouts.any (fun w => ! env.coaches.contains w.coachId) then
            -- `coach._id` on a null directory lookup throws; nothing catches it here.
            .error ⟨500, "Cannot read properties of null"⟩
          else
            .ok (workouts.map (fun w =>
              let selected : Option TimeSlot :=
                match timeSlotId with
                | some tid =>
                  match availableAlternativeTimeSlots.find? (fun s => decide (s.id = tid)) with
                  | some s => some s
                  | none => availableAlternativeTimeSlots.head?
                | none => availableAlternativeTimeSlots.head?
              { coachId := w.coachId,
                workoutId := w.id,
                activityId := match workoutId with | some wid => wid | none => w.workoutType,
                timeSlotId := selected.map (fun s => s.id),
                date := formattedDate,
                alternativeTimeSlots :=
                  (availableAlternativeTimeSlots.filter (fun s =>
                    match selected with
                    | some sel => decide (s.id ≠ sel.id)
                    | none => true)).map (fun s => s.id) }))

/-- `parseFloat(x.toFixed(1))`: round half-up to one decimal place. -/
def toFixed1 (q : ℚ) : ℚ := ((q * 10 + 1 / 2).floor : ℤ) / 10

structure FormattedFeedback where
  feedbackId : Nat
  fromId : Nat
  toId : Nat
  latestFeedback : Option FeedbackEntry
  historyCount : Nat
  fullHistory : List FeedbackEntry
deriving DecidableEq, Repr

structure PagedFeedback where
  feedback : List FormattedFeedback
  total : Nat
  totalPages : Nat
  currentPage : Nat
  perPage : Nat
  averageRating : ℚ
deriving DecidableEq, Repr

/-- Sort key for the in-memory rating sort: `latestFeedback?.rating || 0`. -/
def ratingKey (f : FormattedFeedback) : Nat :=
  match f.latestFeedback with
  | some e => e.rating
  | none => 0

/-- Sort key for the in-memory recency sort: `latestFeedback?.timestamp || 0`. -/
def timestampKey (f : FormattedFeedback) : Int :=
  match f.latestFeedback with
  | some e => e.timestamp
  | none => 0

/-- Stable insertion for a descending in-memory sort by an integer key. -/
def insertDescBy (key : FormattedFeedback → Int) (x : FormattedFeedback) :
    List FormattedFeedback → List FormattedFeedback
  | [] => [x]
  | y :: ys => if key y < key x then x :: y :: ys else y :: insertDescBy key x ys

def sortDescBy (key : FormattedFeedback → Int) : List FormattedFeedback → List FormattedFeedback
  | [] => []
  | x :: xs => insertDescBy key x (sortDescBy key xs)

/-- `FeedbackService.getFeedbackForUserCoach`: ledgers addressed to `userId`
with a non-empty history, one page of them, `latestFeedback` taken as
`history[0]`, sorted in memory, with the page's mean `history[0]` rating. -/
def getFeedbackForUserCoach (env : Env) (st : Store) (userId perPage page : Nat)
    (sortBy : String) : Except HttpError PagedFeedback :=
  let matching := st.feedbacks.filter (fun f => decide (f.toId = userId ∧ f.history ≠ []))
  let pageDocs := (matching.drop ((page - 1) * perPage)).take perPage
  if ! pageDocs.all (fun f => env.users.contains f.fromId && env.users.contains f.toId) then
    -- a null directory lookup makes `fb.from._id` throw; the catch wraps it in a 400
    .error ⟨400, "Cannot read properties of null"⟩
  else
    let formatted := pageDocs.map (fun f =>
      { feedbackId := f.id, fromId := f.fromId, toId := f.toId,
        latestFeedback := f.history.head?,
        historyCount := f.history.length,
        fullHistory := f.history : FormattedFeedback })
    let sorted :=
      if sortBy = "rating" then sortDescBy (fun f => (ratingKey f : Int)) formatted
      else sortDescBy timestampKey formatted
    let totalRatings : Nat := sorted.foldl (fun acc f => acc + ratingKey f) 0
    let averageRating : ℚ :=
      if sorted.length > 0 then toFixed1 ((totalRatings : ℚ) / (sorted.length : ℚ)) else 0
    .ok { feedback := sorted,
          total := matching.length,
          totalPages := (matching.length + perPage - 1) / perPage,
          currentPage := page,
          perPage := perPage,
          averageRating := averageRating }

structure RatingDist where
  r5 : Nat
  r4 : Nat
  r3 : Nat
  r2 : Nat
  r1 : Nat
deriving DecidableEq, Repr

def RatingDist.sum (d : RatingDist) : Nat := d.r5 + d.r4 + d.r3 + d.r2 + d.r1

/-- `ratingDistribution[latestRating]++`, a no-op outside 1..5. -/
def bumpDist (d : RatingDist) (r : Nat) : RatingDist :=
  if r = 5 then { d with r5 := d.r5 + 1 }
  else if r = 4 then { d with r4 := d.r4 + 1 }
  else if r = 3 then { d with r3 := d.r3 + 1 }
  else if r = 2 then { d with r2 := d.r2 + 1 }
  else if r = 1 then { d with r1 := d.r1 + 1 }
  else d

structure FeedbackStats where
  averageRating : ℚ
  totalReviews : Nat
  ratingDistribution : RatingDist
deriving DecidableEq, Repr

structure StatsAcc where
  dist : RatingDist
  totalRating : Nat
  ratingCount : Nat
deriving DecidableEq, Repr

/-- One step of the `feedback.forEach` loop in `getCoachFeedbackStats`:
ledgers with a non-empty history contribute their `history[0]` rating. -/
def statsStep (a : StatsAcc) (f : FeedbackDoc) : StatsAcc :=
  match f.history.head? with
  | some e => ⟨bumpDist a.dist e.rating, a.totalRating + e.rating, a.ratingCount + 1⟩
  | none => a

/-- `FeedbackService.getCoachFeedbackStats`: `totalReviews` counts every ledger
addressed to the coach (empty histories included); the histogram and mean come
only from ledgers with at least one entry, keyed on `history[0]`. -/
def getCoachFeedbackStats (st : Store) (coachId : Nat) : FeedbackStats :=
  let feedback := st.feedbacks.filter (fun f => decide (f.toId = coachId))
  if feedback.length = 0 then ⟨0, 0, ⟨0, 0, 0, 0, 0⟩⟩
  else
    let acc := feedback.foldl statsStep ⟨⟨0, 0, 0, 0, 0⟩, 0, 0⟩
    let averageRating : ℚ :=
      if acc.ratingCount > 0 then toFixed1 ((acc.totalRating : ℚ) / (acc.ratingCount : ℚ))
      else 0
    ⟨averageRating, feedback.length, acc.dist⟩

/-! ## Concrete fixtures used by witnesses -/

def slotA : TimeSlot := ⟨100, (9, 0), (10, 0)⟩

def envW : Env :=
  { nowMs := 0, tz := 0, monthStart := 0, coaches := [10, 11], users := [1, 2, 10] }

def stW : Store :=
  { timeSlots := [slotA], workouts := [⟨200, 300, 10⟩, ⟨201, 300, 11⟩],
    bookings := [], feedbacks := [], nextId := 500 }

def noFail : SavePoint → Bool := fun _ => false

deriving instance DecidableEq for Except

/-! ## C4: the three writes of `book` are atomic -/

/-- C4: a successful `book` extends the store by exactly three documents — the
client→coach ledger, the coach→client ledger, and a `scheduled` booking
referencing both ledger ids — and any failing `book` (wherever inside the
transaction the failure occurs) leaves the store exactly as it was: no booking
without its two ledgers, no orphan ledgers. -/
theorem C4_book_three_writes_atomic (env : Env) (fails : SavePoint → Bool) (st : Store)
    (clientId workoutId coachId timeSlotId : Nat) (date : DateInput) :
    (∀ st' bk,
      bookWorkout env fails st clientId workoutId coachId timeSlotId date = (st', .ok bk) →
      st'.bookings = st.bookings ++ [bk] ∧
      st'.feedbacks = st.feedbacks ++ [⟨st.nextId, clientId, coachId, []⟩,
                                       ⟨st.nextId + 1, coachId, clientId, []⟩] ∧
      bk.state = .scheduled ∧
      bk.clientFeedback = some st.nextId ∧
      bk.coachFeedback = some (st.nextId + 1)) ∧
    (∀ st' e,
      bookWorkout env fails st clientId workoutId coachId timeSlotId date = (st', .error e) →
      st' = st) := by
  constructor
  · intro st' bk h
    unfold bookWorkout at h
    split at h
    all_goals try split at h
    all_goals try split at h
    all_goals try split at h
    all_goals try split at h
    all_goals try split at h
    all_goals try split at h
    all_goals try split at h
    all_goals first
      | (rw [Prod.mk.injEq] at h; exact Except.noConfusion h.2)
      | (simp only [Prod.mk.injEq, Except.ok.injEq] at h
         obtain ⟨hst, hbk⟩ := h
         subst hbk
         subst hst
         exact ⟨rfl, rfl, rfl, rfl, rfl⟩)
  · intro st' e h
    unfold bookWorkout at h
    split at h
    all_goals try split at h
    all_goals try split at h
    all_goals try split at h
    all_goals try split at h
    all_goals try split at h
    all_goals try split at h
    all_goals try split at h
    all_goals rw [Prod.mk.injEq] at h
    all_goals first
      | exact Except.noConfusion h.2
      | exact h.1.symm

/-- Witness for C4 at a concrete input: the success case creates all three
documents, and a failure injected at the booking write leaves the store
unchanged (the two ledgers saved earlier in the transaction are rolled back). -/
theorem C4_book_three_writes_atomic_witness :
    ((bookWorkout envW noFail stW 1 200 10 100 (.ymd 2)).1.feedbacks =
        stW.feedbacks ++ [⟨500, 1, 10, []⟩, ⟨501, 10, 1, []⟩]) ∧
    ((bookWorkout envW (fun p => p = .bookingDoc) stW 1 200 10 100 (.ymd 2)).1 = stW) := by
  refine ⟨?_, ?_⟩
  · exact ((C4_book_three_writes_atomic envW noFail stW 1 200 10 100 (.ymd 2)).1
      (bookWorkout envW noFail stW 1 200 10 100 (.ymd 2)).1
      ⟨502, 1, 10, 200, 100, 2 * dayMs, .scheduled, some 500, some 501, 0⟩
      (by decide)).2.1
  · exact (C4_book_three_writes_atomic envW (fun p => p = .bookingDoc) stW
      1 200 10 100 (.ymd 2)).2
      (bookWorkout envW (fun p => p = .bookingDoc) stW 1 200 10 100 (.ymd 2)).1
      ⟨500, "Failed to book workout"⟩ (by decide)

/-! ## Generic list helpers -/

theorem find?_map_update {α : Type} (key : α → Nat) (i : Nat) (u : α) (hu : key u = i) :
    ∀ (l : List α) (b : α), l.find? (fun x => decide (key x = i)) = some b →
    (l.map (fun x => if key x = i then u else x)).find? (fun x => decide (key x = i)) = some u := by
  intro l
  induction l with
  | nil => intro b h; simp at h
  | cons x xs ih =>
    intro b h
    by_cases hx : key x = i
    · simp [hx, hu]
    · rw [List.find?_cons_of_neg _ (by simpa using hx)] at h
      simpa [hx] using ih _ h

/-! ## C7: date parsing and validation -/

/-- Environment for the date-parsing counterexample: now is local noon of day 10. -/
def envP : Env :=
  { nowMs := 10 * dayMs + 12 * hourMs, tz := 0, monthStart := 0, coaches := [], users := [] }

/-- C7 counterexample: (i) the coach-service `parseAndValidateDate` accepts a
`YYYY-MM-DD` date (day 3) lying before local midnight today (day 10) instead of
rejecting it — no past-date check exists on that path; (ii) the booking-path
`parseAndValidateDate` returns a full date/time input (day 11, 01:00) as-is
rather than normalized to a local-midnight date. -/
theorem C7_counterexample :
    (coachParseAndValidateDate envP (.ymd 3) = .ok (3 * dayMs) ∧
      3 * dayMs < localMidnight envP.tz envP.nowMs) ∧
    (workoutParseAndValidateDate envP (.dateTimeStr (11 * dayMs + hourMs)) =
        .ok (11 * dayMs + hourMs) ∧
      11 * dayMs + hourMs ≠ localMidnight envP.tz (11 * dayMs + hourMs)) := by
  decide

/-- C7 amended: all three input forms are parsed on both paths.  The booking
path (`WorkoutService.parseAndValidateDate`) rejects unparseable input with a
400 and rejects any input whose local-midnight normalization is before local
midnight today, but on success it returns the parsed instant itself — the time
of day is retained, normalization is applied only for the past-date comparison
(`YYYY-MM-DD` goes through the generic parser, to UTC midnight `k * dayMs`).
The coach-service variant rejects only unparseable input — parseable dates are
returned (with `YYYY-MM-DD` as a local midnight) with no past-date check. -/
theorem C7_date_parsing_amended (env : Env) (i : DateInput) :
    (∀ t, workoutParseAndValidateDate env i = .ok t →
      jsParse env i = some t ∧
      localMidnight env.tz env.nowMs ≤ localMidnight env.tz t) ∧
    (∀ t, jsParse env i = some t →
      localMidnight env.tz env.nowMs ≤ localMidnight env.tz t →
      workoutParseAndValidateDate env i = .ok t) ∧
    (i = .malformed →
      workoutParseAndValidateDate env i = .error ⟨400, "Invalid date format"⟩ ∧
      coachParseAndValidateDate env i = .error ⟨400, "Invalid date format"⟩) ∧
    (i ≠ .malformed → ∃ t, coachParseAndValidateDate env i = .ok t) ∧
    (∀ k, i = .ymd k → coachParseAndValidateDate env i = .ok (k * dayMs - env.tz)) := by
  refine ⟨?_, ?_, ?_, ?_, ?_⟩
  · intro t h
    unfold workoutParseAndValidateDate at h
    split at h
    · exact absurd h (by simp)
    · rename_i bd heq
      split at h
      · exact absurd h (by simp)
      · rename_i hge
        simp only [Except.ok.injEq] at h
        subst h
        exact ⟨heq, by omega⟩
  · intro t hj hge
    unfold workoutParseAndValidateDate
    rw [hj]
    simp only
    rw [if_neg (by omega)]
  · intro hi
    subst hi
    exact ⟨rfl, rfl⟩
  · intro hi
    cases i with
    | jsDate t => exact ⟨t, rfl⟩
    | dayNum d => exact ⟨_, rfl⟩
    | ymd k => exact ⟨_, rfl⟩
    | dateTimeStr t => exact ⟨t, rfl⟩
    | malformed => exact absurd rfl hi
  · intro k hk
    subst hk
    rfl

/-- Witness for C7 amended at concrete inputs. -/
theorem C7_date_parsing_amended_witness :
    workoutParseAndValidateDate envP (.ymd 12) = .ok (12 * dayMs) ∧
    (∃ t, coachParseAndValidateDate envP (.jsDate 5) = .ok t) := by
  constructor
  · exact (C7_date_parsing_amended envP (.ymd 12)).2.1 (12 * dayMs) (by decide) (by decide)
  · exact (C7_date_parsing_amended envP (.jsDate 5)).2.2.2.1 (by decide)

/-! ## C5: the booking-time slot check -/

/-- Environment for the slot-check scenario: now is 09:30 local on day 0. -/
def envT : Env :=
  { nowMs := 9 * hourMs + 30 * minuteMs, tz := 0, monthStart := 0,
    coaches := [10], users := [1, 10] }

def stT : Store :=
  { timeSlots := [slotA], workouts := [⟨200, 300, 10⟩], bookings := [], feedbacks := [],
    nextId := 500 }

/-- C5 counterexample: booking today's 09:00–10:00 slot at 09:30 is rejected
with "already passed" even though the slot's end-time-of-day combined with the
booking date (10:00 today) has not yet elapsed — so `book` does NOT succeed on
this check exactly when the end time is still in the future; the code keys the
check on the slot's start time. -/
theorem C5_counterexample :
    (bookWorkout envT noFail stT 1 200 10 100 (.jsDate 0)).2 =
      .error ⟨400, "Cannot book a time slot that has already passed"⟩ ∧
    envT.nowMs < setHM envT.tz 0 slotA.endTime.1 slotA.endTime.2 := by
  decide

/-- C5 amended: during `book`, after the time slot is found, the request is
rejected with "Cannot book a time slot that has already passed" exactly when
the booking date falls on today (local time) and now is strictly past the
slot's START-time-of-day today; the end time is not consulted, and bookings
for future days always pass this check. -/
theorem C5_slot_passed_amended (env : Env) (fails : SavePoint → Bool) (st : Store)
    (clientId workoutId coachId timeSlotId : Nat) (date : DateInput) (t : Int)
    (wk : Workout) (sl : TimeSlot)
    (hparse : workoutParseAndValidateDate env date = .ok t)
    (hco : env.coaches.contains coachId = true)
    (hw : findWorkoutFor st workoutId coachId = some wk)
    (hsl : findTimeSlot st timeSlotId = some sl) :
    (bookWorkout env fails st clientId workoutId coachId timeSlotId date).2 =
        .error ⟨400, "Cannot book a time slot that has already passed"⟩ ↔
      (localMidnight env.tz t = localMidnight env.tz env.nowMs ∧
       env.nowMs > setHM env.tz env.nowMs sl.startTime.1 sl.startTime.2) := by
  unfold bookWorkout
  rw [hparse]
  simp only [hco, not_true_eq_false, if_false, hw, hsl]
  by_cases hpass : isTimeSlotPassed env t sl.startTime
  · rw [if_pos hpass]
    simp only [isTimeSlotPassed] at hpass
    constructor
    · intro _
      split at hpass
      · next hday => exact ⟨hday, by simpa using hpass⟩
      · exact absurd hpass (by simp)
    · intro _; rfl
  · rw [if_neg hpass]
    have hR : ¬(localMidnight env.tz t = localMidnight env.tz env.nowMs ∧
        env.nowMs > setHM env.tz env.nowMs sl.startTime.1 sl.startTime.2) := by
      intro hc
      exact hpass (by simp [isTimeSlotPassed, hc.1, hc.2])
    constructor
    · intro hL
      exfalso
      revert hL
      split
      · simp
      · split
        · simp
        · split
          · simp
          · simp
    · intro hc
      exact absurd hc hR

/-- Witness for C5 amended: at 09:30, booking today's 09:00–10:00 slot trips
the check (today ∧ now past 09:00). -/
theorem C5_slot_passed_amended_witness :
    (bookWorkout envT noFail stT 1 200 10 100 (.jsDate 0)).2 =
      .error ⟨400, "Cannot book a time slot that has already passed"⟩ :=
  (C5_slot_passed_amended envT noFail stT 1 200 10 100 (.jsDate 0) 0 ⟨200, 300, 10⟩ slotA
    (by decide) (by decide) (by decide) (by decide)).mpr ⟨by decide, by decide⟩

/-! ## Inversion and evaluation helpers for `bookWorkout` and `cancelBooking` -/

theorem bookWorkout_ok_inv (env : Env) (fails : SavePoint → Bool) (st : Store)
    (clientId workoutId coachId timeSlotId : Nat) (date : DateInput)
    (st' : Store) (bk : Booking)
    (h : bookWorkout env fails st clientId workoutId coachId timeSlotId date = (st', .ok bk)) :
    ∃ t sl, workoutParseAndValidateDate env date = .ok t ∧
      env.coaches.contains coachId = true ∧
      findTimeSlot st timeSlotId = some sl ∧
      isTimeSlotPassed env t sl.startTime = false ∧
      coachConflicts st coachId timeSlotId (startOfDayOf env.tz t) (endOfDayOf env.tz t) = [] ∧
      clientConflicts st clientId timeSlotId (startOfDayOf env.tz t) (endOfDayOf env.tz t) = [] ∧
      bk = ⟨st.nextId + 2, clientId, coachId, workoutId, timeSlotId, t, .scheduled,
            some st.nextId, some (st.nextId + 1), env.nowMs⟩ ∧
      st' = { st with feedbacks := st.feedbacks ++ [⟨st.nextId, clientId, coachId, []⟩,
                                                    ⟨st.nextId + 1, coachId, clientId, []⟩],
                      bookings := st.bookings ++
                        [⟨st.nextId + 2, clientId, coachId, workoutId, timeSlotId, t, .scheduled,
                          some st.nextId, some (st.nextId + 1), env.nowMs⟩],
                      nextId := st.nextId + 3 } := by
  unfold bookWorkout at h
  split at h
  all_goals try split at h
  all_goals try split at h
  all_goals try split at h
  all_goals try split at h
  all_goals try split at h
  all_goals try split at h
  all_goals try split at h
  all_goals try (rw [Prod.mk.injEq] at h; exact Except.noConfusion h.2)
  simp only [Prod.mk.injEq, Except.ok.injEq] at h
  obtain ⟨hst, hbk⟩ := h
  subst hbk
  subst hst
  refine ⟨_, _, by assumption, not_not.mp (by assumption), by assumption,
    Bool.eq_false_iff.mpr (by assumption), not_not.mp (by assumption),
    not_not.mp (by assumption), rfl, rfl⟩

theorem bookWorkout_ok_of (env : Env) (fails : SavePoint → Bool) (st : Store)
    (clientId workoutId coachId timeSlotId : Nat) (date : DateInput) (t : Int)
    (wk : Workout) (sl : TimeSlot)
    (hparse : workoutParseAndValidateDate env date = .ok t)
    (hco : env.coaches.contains coachId = true)
    (hw : findWorkoutFor st workoutId coachId = some wk)
    (hsl : findTimeSlot st timeSlotId = some sl)
    (hpass : isTimeSlotPassed env t sl.startTime = false)
    (hcc : coachConflicts st coachId timeSlotId (startOfDayOf env.tz t) (endOfDayOf env.tz t) = [])
    (hcl : clientConflicts st clientId timeSlotId (startOfDayOf env.tz t) (endOfDayOf env.tz t) = [])
    (hf1 : fails .clientFb = false) (hf2 : fails .coachFb = false)
    (hf3 : fails .bookingDoc = false) :
    bookWorkout env fails st clientId workoutId coachId timeSlotId date =
      ({ st with feedbacks := st.feedbacks ++ [⟨st.nextId, clientId, coachId, []⟩,
                                               ⟨st.nextId + 1, coachId, clientId, []⟩],
                 bookings := st.bookings ++
                   [⟨st.nextId + 2, clientId, coachId, workoutId, timeSlotId, t, .scheduled,
                     some st.nextId, some (st.nextId + 1), env.nowMs⟩],
                 nextId := st.nextId + 3 },
       .ok ⟨st.nextId + 2, clientId, coachId, workoutId, timeSlotId, t, .scheduled,
            some st.nextId, some (st.nextId + 1), env.nowMs⟩) := by
  unfold bookWorkout
  rw [hparse]
  simp only [hco, not_true_eq_false, if_false, hw, hsl, hpass, Bool.false_eq_true, ne_eq, hcc,
    hcl, not_true_eq_false, not_false_eq_true, if_true, if_false, hf1, hf2, hf3, or_self]

theorem bookWorkout_coach_conflict_of (env : Env) (fails : SavePoint → Bool) (st : Store)
    (clientId workoutId coachId timeSlotId : Nat) (date : DateInput) (t : Int)
    (wk : Workout) (sl : TimeSlot)
    (hparse : workoutParseAndValidateDate env date = .ok t)
    (hco : env.coaches.contains coachId = true)
    (hw : findWorkoutFor st workoutId coachId = some wk)
    (hsl : findTimeSlot st timeSlotId = some sl)
    (hpass : isTimeSlotPassed env t sl.startTime = false)
    (hcc : coachConflicts st coachId timeSlotId (startOfDayOf env.tz t)
      (endOfDayOf env.tz t) ≠ []) :
    bookWorkout env fails st clientId workoutId coachId timeSlotId date =
      (st, .error ⟨409, "Coach already has a booking at this time slot"⟩) := by
  unfold bookWorkout
  rw [hparse]
  simp only [hco, not_true_eq_false, if_false, hw, hsl, hpass, Bool.false_eq_true, ne_eq, hcc,
    not_false_eq_true, if_true]

theorem bookWorkout_client_conflict_of (env : Env) (fails : SavePoint → Bool) (st : Store)
    (clientId workoutId coachId timeSlotId : Nat) (date : DateInput) (t : Int)
    (wk : Workout) (sl : TimeSlot)
    (hparse : workoutParseAndValidateDate env date = .ok t)
    (hco : env.coaches.contains coachId = true)
    (hw : findWorkoutFor st workoutId coachId = some wk)
    (hsl : findTimeSlot st timeSlotId = some sl)
    (hpass : isTimeSlotPassed env t sl.startTime = false)
    (hcc : coachConflicts st coachId timeSlotId (startOfDayOf env.tz t)
      (endOfDayOf env.tz t) = [])
    (hcl : clientConflicts st clientId timeSlotId (startOfDayOf env.tz t)
      (endOfDayOf env.tz t) ≠ []) :
    bookWorkout env fails st clientId workoutId coachId timeSlotId date =
      (st, .error ⟨409, "You already have a booking at this time slot"⟩) := by
  unfold bookWorkout
  rw [hparse]
  simp only [hco, not_true_eq_false, if_false, hw, hsl, hpass, Bool.false_eq_true, ne_eq, hcc,
    hcl, not_true_eq_false, not_false_eq_true, if_true, if_false]

theorem cancelBooking_ok_of (env : Env) (st : Store) (bookingId userId : Nat) (b : Booking)
    (hb : findBooking st bookingId = some b)
    (hu : env.users.contains userId = true)
    (hp : b.clientId = userId ∨ b.coachId = userId)
    (hs : b.state = .scheduled)
    (hhrs : ¬ (b.date - env.nowMs).fdiv hourMs < 12) :
    cancelBooking env st bookingId userId =
      ({ st with bookings := st.bookings.map (fun x =>
          if x.id = bookingId then { b with state := BookingState.cancelled } else x) },
       .ok { b with state := BookingState.cancelled }) := by
  unfold cancelBooking
  rw [hb]
  simp only [hu, not_true_eq_false, if_false, hp, hs, if_true, hhrs, reduceCtorEq]

theorem cancelBooking_ok_inv (env : Env) (st : Store) (bookingId userId : Nat)
    (st' : Store) (bk' : Booking)
    (h : cancelBooking env st bookingId userId = (st', .ok bk')) :
    ∃ b, findBooking st bookingId = some b ∧ b.state = .scheduled ∧
      ¬ (b.date - env.nowMs).fdiv hourMs < 12 ∧
      bk' = { b with state := BookingState.cancelled } ∧
      st' = { st with bookings := st.bookings.map (fun x =>
        if x.id = bookingId then { b with state := BookingState.cancelled } else x) } := by
  unfold cancelBooking at h
  split at h
  all_goals try split at h
  all_goals try split at h
  all_goals try split at h
  all_goals try split at h
  all_goals try split at h
  all_goals try split at h
  all_goals try (rw [Prod.mk.injEq] at h; exact Except.noConfusion h.2)
  simp only [Prod.mk.injEq, Except.ok.injEq] at h
  obtain ⟨hst, hbk⟩ := h
  subst hbk
  subst hst
  have hsch : ∀ (s : BookingState), s ≠ .cancelled → s ≠ .completed →
      s ≠ .waiting_for_feedback → s = .scheduled := by
    intro s h1 h2 h3
    cases s <;> simp_all
  exact ⟨_, by assumption, hsch _ (by assumption) (by assumption) (by assumption),
    by assumption, rfl, rfl⟩

/-! ## C3: cancellation policy -/

/-- C3: `cancel` rejects (400) whenever the booking is already `cancelled`,
`completed`, or `waiting_for_feedback`; with a `scheduled` booking it rejects
with the 12-hour-lead-time policy error whenever the whole number of hours
between now and the booking date, rounded down (floor division), is below 12;
and when the state is `scheduled` and the floored hour difference is at least
12 it succeeds and the stored booking's state becomes `cancelled`. -/
theorem C3_cancel_policy (env : Env) (st : Store) (bookingId userId : Nat) (b : Booking)
    (hb : findBooking st bookingId = some b)
    (hu : env.users.contains userId = true)
    (hp : b.clientId = userId ∨ b.coachId = userId) :
    (b.state = .cancelled ∨ b.state = .completed ∨ b.state = .waiting_for_feedback →
      ∃ e, (cancelBooking env st bookingId userId).2 = .error e ∧ e.statusCode = 400) ∧
    (b.state = .scheduled → (b.date - env.nowMs).fdiv hourMs < 12 →
      (cancelBooking env st bookingId userId).2 =
        .error ⟨400, "Cannot cancel a booking less than 12 hours before the date"⟩) ∧
    (b.state = .scheduled → 12 ≤ (b.date - env.nowMs).fdiv hourMs →
      (cancelBooking env st bookingId userId).2 =
        .ok { b with state := BookingState.cancelled } ∧
      findBooking (cancelBooking env st bookingId userId).1 bookingId =
        some { b with state := BookingState.cancelled }) := by
  refine ⟨?_, ?_, ?_⟩
  · intro hstate
    unfold cancelBooking
    rw [hb]
    simp only [hu, not_true_eq_false, if_false]
    rw [if_neg (not_not_intro hp)]
    rcases hstate with h1 | h1 | h1
    · rw [if_pos h1]
      exact ⟨_, rfl, rfl⟩
    · rw [if_neg (by simp [h1]), if_pos h1]
      exact ⟨_, rfl, rfl⟩
    · rw [if_neg (by simp [h1]), if_neg (by simp [h1]), if_pos h1]
      exact ⟨_, rfl, rfl⟩
  · intro hs hlt
    unfold cancelBooking
    rw [hb]
    simp only [hu, not_true_eq_false, if_false]
    rw [if_neg (not_not_intro hp), if_neg (by simp [hs]), if_neg (by simp [hs]),
        if_neg (by simp [hs]), if_pos hlt]
  · intro hs hge
    rw [cancelBooking_ok_of env st bookingId userId b hb hu hp hs (by omega)]
    refine ⟨rfl, ?_⟩
    have hid : b.id = bookingId := by
      have hpred := List.find?_some hb
      simpa using hpred
    unfold findBooking
    have hb' : st.bookings.find? (fun x => decide (x.id = bookingId)) = some b := hb
    exact find?_map_update (fun x => x.id) bookingId
      { b with state := BookingState.cancelled } (by simp [hid]) st.bookings b hb'

def envC3 : Env := { nowMs := 0, tz := 0, monthStart := 0, coaches := [10], users := [1, 10] }

def stC3 : Store :=
  { timeSlots := [slotA], workouts := [⟨200, 300, 10⟩],
    bookings :=
      [⟨700, 1, 10, 200, 100, 48 * hourMs, .scheduled, some 400, some 401, 0⟩,
       ⟨701, 1, 10, 200, 100, 11 * hourMs + 59 * minuteMs, .scheduled, some 402, some 403, 0⟩,
       ⟨702, 1, 10, 200, 100, 48 * hourMs, .completed, some 404, some 405, 0⟩],
    feedbacks := [], nextId := 800 }

/-- Witness for C3: a booking 48h away cancels successfully and is stored
`cancelled`; a booking 11h59m away (floored hour difference 11) is rejected
with the lead-time policy error; a `completed` booking is rejected with a 400. -/
theorem C3_cancel_policy_witness :
    ((cancelBooking envC3 stC3 700 1).2 =
        .ok ⟨700, 1, 10, 200, 100, 48 * hourMs, .cancelled, some 400, some 401, 0⟩ ∧
      findBooking (cancelBooking envC3 stC3 700 1).1 700 =
        some ⟨700, 1, 10, 200, 100, 48 * hourMs, .cancelled, some 400, some 401, 0⟩) ∧
    (cancelBooking envC3 stC3 701 1).2 =
      .error ⟨400, "Cannot cancel a booking less than 12 hours before the date"⟩ ∧
    (∃ e, (cancelBooking envC3 stC3 702 1).2 = .error e ∧ e.statusCode = 400) := by
  refine ⟨?_, ?_, ?_⟩
  · exact (C3_cancel_policy envC3 stC3 700 1
      ⟨700, 1, 10, 200, 100, 48 * hourMs, .scheduled, some 400, some 401, 0⟩
      (by decide) (by decide) (by decide)).2.2 (by decide) (by decide)
  · exact (C3_cancel_policy envC3 stC3 701 1
      ⟨701, 1, 10, 200, 100, 11 * hourMs + 59 * minuteMs, .scheduled, some 402, some 403, 0⟩
      (by decide) (by decide) (by decide)).2.1 (by decide) (by decide)
  · exact (C3_cancel_policy envC3 stC3 702 1
      ⟨702, 1, 10, 200, 100, 48 * hourMs, .completed, some 404, some 405, 0⟩
      (by decide) (by decide) (by decide)).1 (by decide)

/-! ## C2: feedback timing and the unconditional completed transition -/

/-- C2: for a booking whose actor is its client or coach (with the referenced
directional ledger present, as `book` pre-creates it), `addFeedback` fails
with a 400 while the slot's end time combined with the booking date has not
yet elapsed; once it has elapsed (and the booking is not already `completed`),
it succeeds, appends exactly one entry at the end of the appropriate
directional ledger, and sets the booking's state to `completed`
unconditionally — every successful submission leaves the booking `completed`. -/
theorem C2_addFeedback_completes (env : Env) (st : Store) (userId bookingId : Nat)
    (message : String) (rating : Nat) (b : Booking) (sl : TimeSlot) (fid : Nat)
    (d : FeedbackDoc)
    (hb : findBooking st bookingId = some b)
    (hsl : findTimeSlot st b.timeSlotId = some sl)
    (hp : userId = b.clientId ∨ userId = b.coachId)
    (hfid : (if userId = b.clientId then b.clientFeedback else b.coachFeedback) = some fid)
    (hd : findFeedbackDoc st fid = some d) :
    (setHM env.tz b.date sl.endTime.1 sl.endTime.2 > env.nowMs →
      ∃ e, (addFeedback env st userId bookingId message rating).2 = .error e ∧
        e.statusCode = 400) ∧
    (setHM env.tz b.date sl.endTime.1 sl.endTime.2 ≤ env.nowMs → b.state ≠ .completed →
      (addFeedback env st userId bookingId message rating).2 =
        .ok ⟨message, rating, env.nowMs⟩ ∧
      findBooking (addFeedback env st userId bookingId message rating).1 bookingId =
        some { b with state := BookingState.completed } ∧
      findFeedbackDoc (addFeedback env st userId bookingId message rating).1 fid =
        some { d with history := d.history ++ [⟨message, rating, env.nowMs⟩] }) := by
  have hidb : b.id = bookingId := by
    have hpred := List.find?_some hb
    simpa using hpred
  have hidd : d.id = fid := by
    have hpred := List.find?_some hd
    simpa using hpred
  constructor
  · intro hlate
    unfold addFeedback
    rw [hb]
    simp only []
    rw [if_neg (not_not_intro hp)]
    by_cases hcomp : b.state = .completed
    · rw [if_pos hcomp]
      exact ⟨_, rfl, rfl⟩
    · rw [if_neg hcomp, hsl]
      simp only []
      rw [if_pos hlate]
      exact ⟨_, rfl, rfl⟩
  · intro hdone hcomp
    unfold addFeedback
    rw [hb]
    simp only []
    rw [if_neg (not_not_intro hp), if_neg hcomp, hsl]
    simp only []
    rw [if_neg (by omega), hfid]
    simp only []
    rw [hd]
    refine ⟨rfl, ?_, ?_⟩
    · unfold findBooking
      have hb' : st.bookings.find? (fun x => decide (x.id = bookingId)) = some b := hb
      exact find?_map_update (fun x => x.id) bookingId
        { b with state := BookingState.completed } (by simp [hidb]) st.bookings b hb'
    · unfold findFeedbackDoc
      have hd' : st.feedbacks.find? (fun x => decide (x.id = fid)) = some d := hd
      exact find?_map_update (fun x => x.id) fid
        { d with history := d.history ++ [⟨message, rating, env.nowMs⟩] }
        (by simp [hidd]) st.feedbacks d hd'

def envF : Env :=
  { nowMs := 2 * dayMs, tz := 0, monthStart := 0, coaches := [10], users := [1, 10] }

def stF : Store :=
  { timeSlots := [slotA], workouts := [⟨200, 300, 10⟩],
    bookings := [⟨500, 1, 10, 200, 100, 0, .scheduled, some 400, some 401, 0⟩],
    feedbacks := [⟨400, 1, 10, []⟩, ⟨401, 10, 1, []⟩], nextId := 600 }

def envFearly : Env :=
  { nowMs := 9 * hourMs, tz := 0, monthStart := 0, coaches := [10], users := [1, 10] }

/-- Witness for C2: two days after a day-0 booking the client's feedback
succeeds, lands at the end of ledger 400, and completes the booking; at 09:00
on the booking day (slot ends 10:00) it is rejected with a 400. -/
theorem C2_addFeedback_completes_witness :
    ((addFeedback envF stF 1 500 "great" 5).2 = .ok ⟨"great", 5, 2 * dayMs⟩ ∧
      findBooking (addFeedback envF stF 1 500 "great" 5).1 500 =
        some ⟨500, 1, 10, 200, 100, 0, .completed, some 400, some 401, 0⟩ ∧
      findFeedbackDoc (addFeedback envF stF 1 500 "great" 5).1 400 =
        some ⟨400, 1, 10, [⟨"great", 5, 2 * dayMs⟩]⟩) ∧
    (∃ e, (addFeedback envFearly stF 1 500 "early" 4).2 = .error e ∧ e.statusCode = 400) := by
  constructor
  · exact (C2_addFeedback_completes envF stF 1 500 "great" 5
      ⟨500, 1, 10, 200, 100, 0, .scheduled, some 400, some 401, 0⟩ slotA 400 ⟨400, 1, 10, []⟩
      (by decide) (by decide) (by decide) (by decide) (by decide)).2 (by decide) (by decide)
  · exact (C2_addFeedback_completes envFearly stF 1 500 "early" 4
      ⟨500, 1, 10, 200, 100, 0, .scheduled, some 400, some 401, 0⟩ slotA 400 ⟨400, 1, 10, []⟩
      (by decide) (by decide) (by decide) (by decide) (by decide)).1 (by decide)

/-! ## C1: double-booking conflicts -/

/-- C1: after a successful `book(client1, w1, coach1, slot, D)` on a midnight
date `D`, a second `book` for the same (coach1, slot, D) with a different
client fails with the coach-side 409 Conflict; a second `book` for the same
(client1, slot, D) with a different coach fails with a 409 Conflict; and only
non-cancelled bookings trigger the conflict: once the first booking is
successfully cancelled, a new `book` for the same (coach1, slot, D) succeeds. -/
theorem C1_booking_conflicts
    (env : Env) (fails1 fails2 : SavePoint → Bool) (st st1 : Store)
    (client1 client2 w1 w2 w2c coach1 coach2 slot : Nat) (D : DateInput)
    (t : Int) (bk : Booking) (wk2 wk3 : Workout)
    (hparse : workoutParseAndValidateDate env D = .ok t)
    (hmid : localMidnight env.tz t = t)
    (hfresh : ∀ x ∈ st.bookings, x.id ≠ st.nextId + 2)
    (hw2 : findWorkoutFor st w2 coach1 = some wk2)
    (hcl2 : clientConflicts st client2 slot (startOfDayOf env.tz t)
      (endOfDayOf env.tz t) = [])
    (hbook : bookWorkout env fails1 st client1 w1 coach1 slot D = (st1, .ok bk)) :
    (client2 ≠ client1 →
      (bookWorkout env fails2 st1 client2 w2 coach1 slot D).2 =
        .error ⟨409, "Coach already has a booking at this time slot"⟩) ∧
    (coach2 ≠ coach1 → env.coaches.contains coach2 = true →
      findWorkoutFor st w2c coach2 = some wk3 →
      ∃ e, (bookWorkout env fails2 st1 client1 w2c coach2 slot D).2 = .error e ∧
        e.statusCode = 409) ∧
    (∀ st2 bk2, cancelBooking env st1 bk.id client1 = (st2, .ok bk2) →
      fails2 .clientFb = false → fails2 .coachFb = false → fails2 .bookingDoc = false →
      ∃ st3 bk3, bookWorkout env fails2 st2 client2 w2 coach1 slot D = (st3, .ok bk3)) := by
  obtain ⟨t', sl, heq, hco, hsl, hpass, hcc, hcl, hbkeq, hst1⟩ :=
    bookWorkout_ok_inv env fails1 st client1 w1 coach1 slot D st1 bk hbook
  have ht : t = t' := by
    have h2 := heq
    rw [hparse] at h2
    exact Except.ok.inj h2
  subst ht
  subst hbkeq
  have hbookings1 : st1.bookings = st.bookings ++
      [⟨st.nextId + 2, client1, coach1, w1, slot, t, .scheduled,
        some st.nextId, some (st.nextId + 1), env.nowMs⟩] := by rw [hst1]
  have hworkouts1 : st1.workouts = st.workouts := by rw [hst1]
  have htimeslots1 : st1.timeSlots = st.timeSlots := by rw [hst1]
  have hw2' : findWorkoutFor st1 w2 coach1 = some wk2 := by
    unfold findWorkoutFor
    rw [hworkouts1]
    exact hw2
  have hsl' : findTimeSlot st1 slot = some sl := by
    unfold findTimeSlot
    rw [htimeslots1]
    exact hsl
  have hccM : st.bookings.filter (fun b => decide (b.coachId = coach1 ∧
      b.timeSlotId = slot ∧ startOfDayOf env.tz t ≤ b.date ∧
      b.date < endOfDayOf env.tz t ∧ b.state ≠ BookingState.cancelled)) = [] := hcc
  have hclM : st.bookings.filter (fun b => decide (b.clientId = client1 ∧
      b.timeSlotId = slot ∧ startOfDayOf env.tz t ≤ b.date ∧
      b.date < endOfDayOf env.tz t ∧ b.state ≠ BookingState.cancelled)) = [] := hcl
  have hcl2M : st.bookings.filter (fun b => decide (b.clientId = client2 ∧
      b.timeSlotId = slot ∧ startOfDayOf env.tz t ≤ b.date ∧
      b.date < endOfDayOf env.tz t ∧ b.state ≠ BookingState.cancelled)) = [] := hcl2
  have hccne : coachConflicts st1 coach1 slot (startOfDayOf env.tz t)
      (endOfDayOf env.tz t) ≠ [] := by
    unfold coachConflicts
    rw [hbookings1, List.filter_append, hccM]
    simp
    exact ⟨le_of_eq hmid, by show t < localMidnight env.tz t + 86399999; omega⟩
  refine ⟨?_, ?_, ?_⟩
  · intro _
    rw [bookWorkout_coach_conflict_of env fails2 st1 client2 w2 coach1 slot D t wk2 sl
      hparse hco hw2' hsl' hpass hccne]
  · intro _ hco2 hw3
    have hw3' : findWorkoutFor st1 w2c coach2 = some wk3 := by
      unfold findWorkoutFor
      rw [hworkouts1]
      exact hw3
    by_cases hcc2 : coachConflicts st1 coach2 slot (startOfDayOf env.tz t)
        (endOfDayOf env.tz t) = []
    · have hclne : clientConflicts st1 client1 slot (startOfDayOf env.tz t)
          (endOfDayOf env.tz t) ≠ [] := by
        unfold clientConflicts
        rw [hbookings1, List.filter_append, hclM]
        simp
        exact ⟨le_of_eq hmid, by show t < localMidnight env.tz t + 86399999; omega⟩
      refine ⟨⟨409, "You already have a booking at this time slot"⟩, ?_, rfl⟩
      rw [bookWorkout_client_conflict_of env fails2 st1 client1 w2c coach2 slot D t wk3 sl
        hparse hco2 hw3' hsl' hpass hcc2 hclne]
    · refine ⟨⟨409, "Coach already has a booking at this time slot"⟩, ?_, rfl⟩
      rw [bookWorkout_coach_conflict_of env fails2 st1 client1 w2c coach2 slot D t wk3 sl
        hparse hco2 hw3' hsl' hpass hcc2]
  · intro st2 bk2 hcancel hf1 hf2 hf3
    obtain ⟨b, hfb, hbstate, hbhrs, hbk2, hst2⟩ :=
      cancelBooking_ok_inv env st1 _ client1 st2 bk2 hcancel
    have hfind : findBooking st1 (st.nextId + 2) =
        some ⟨st.nextId + 2, client1, coach1, w1, slot, t, .scheduled,
          some st.nextId, some (st.nextId + 1), env.nowMs⟩ := by
      unfold findBooking
      rw [hbookings1, List.find?_append]
      have h1 : st.bookings.find? (fun x => decide (x.id = st.nextId + 2)) = none := by
        rw [List.find?_eq_none]
        intro x hx
        simp [hfresh x hx]
      rw [h1]
      simp
    have hbeq : b = ⟨st.nextId + 2, client1, coach1, w1, slot, t, .scheduled,
        some st.nextId, some (st.nextId + 1), env.nowMs⟩ := by
      have h2 : some b = some (⟨st.nextId + 2, client1, coach1, w1, slot, t, .scheduled,
          some st.nextId, some (st.nextId + 1), env.nowMs⟩ : Booking) :=
        hfb.symm.trans hfind
      exact Option.some.inj h2
    subst hbeq
    subst hst2
    have hmap : st1.bookings.map (fun x => if x.id = st.nextId + 2 then
        { (⟨st.nextId + 2, client1, coach1, w1, slot, t, .scheduled,
           some st.nextId, some (st.nextId + 1), env.nowMs⟩ : Booking) with
          state := BookingState.cancelled } else x) =
        st.bookings ++
        [⟨st.nextId + 2, client1, coach1, w1, slot, t, .cancelled,
          some st.nextId, some (st.nextId + 1), env.nowMs⟩] := by
      rw [hbookings1, List.map_append]
      congr 1
      · have hid : ∀ x ∈ st.bookings,
            (fun x => if x.id = st.nextId + 2 then
              { (⟨st.nextId + 2, client1, coach1, w1, slot, t, .scheduled,
                 some st.nextId, some (st.nextId + 1), env.nowMs⟩ : Booking) with
                state := BookingState.cancelled } else x) x = x := by
          intro x hx
          simp [hfresh x hx]
        rw [List.map_congr_left hid]
        exact List.map_id st.bookings
      · simp
    have hw2c : findWorkoutFor ({ st1 with bookings := st1.bookings.map (fun x =>
        if x.id = st.nextId + 2 then
          { (⟨st.nextId + 2, client1, coach1, w1, slot, t, .scheduled,
             some st.nextId, some (st.nextId + 1), env.nowMs⟩ : Booking) with
            state := BookingState.cancelled } else x) } : Store) w2 coach1 = some wk2 := by
      unfold findWorkoutFor
      show st1.workouts.find? _ = _
      rw [hworkouts1]
      exact hw2
    have hslc : findTimeSlot ({ st1 with bookings := st1.bookings.map (fun x =>
        if x.id = st.nextId + 2 then
          { (⟨st.nextId + 2, client1, coach1, w1, slot, t, .scheduled,
             some st.nextId, some (st.nextId + 1), env.nowMs⟩ : Booking) with
            state := BookingState.cancelled } else x) } : Store) slot = some sl := by
      unfold findTimeSlot
      show st1.timeSlots.find? _ = _
      rw [htimeslots1]
      exact hsl
    refine ⟨_, _, bookWorkout_ok_of env fails2 _ client2 w2 coach1 slot D t wk2 sl
      hparse hco hw2c hslc hpass ?_ ?_ hf1 hf2 hf3⟩
    · unfold coachConflicts
      show (st1.bookings.map _).filter _ = []
      rw [hmap, List.filter_append, hccM]
      simp
    · unfold clientConflicts
      show (st1.bookings.map _).filter _ = []
      rw [hmap, List.filter_append, hcl2M]
      simp

def stW1 : Store := (bookWorkout envW noFail stW 1 200 10 100 (.ymd 2)).1

def bkW : Booking := ⟨502, 1, 10, 200, 100, 2 * dayMs, .scheduled, some 500, some 501, 0⟩

def stW2 : Store := (cancelBooking envW stW1 502 1).1

/-- Witness for C1: after client 1 books coach 10's slot 100 for day 2, client
2 booking the same (coach, slot, day) gets the coach-side 409; client 1 booking
coach 11 at the same (slot, day) gets a 409; after cancelling the first
booking, client 2 can book the same (coach, slot, day). -/
theorem C1_booking_conflicts_witness :
    (bookWorkout envW noFail stW1 2 200 10 100 (.ymd 2)).2 =
      .error ⟨409, "Coach already has a booking at this time slot"⟩ ∧
    (∃ e, (bookWorkout envW noFail stW1 1 201 11 100 (.ymd 2)).2 = .error e ∧
      e.statusCode = 409) ∧
    (∃ st3 bk3, bookWorkout envW noFail stW2 2 200 10 100 (.ymd 2) = (st3, .ok bk3)) := by
  have H := C1_booking_conflicts envW noFail noFail stW stW1 1 2 200 200 201 10 11 100
    (.ymd 2) (2 * dayMs) bkW ⟨200, 300, 10⟩ ⟨201, 300, 11⟩
    (by decide) (by decide) (by decide) (by decide) (by decide) (by decide)
  exact ⟨H.1 (by decide), H.2.1 (by decide) (by decide) (by decide),
    H.2.2 stW2 ⟨502, 1, 10, 200, 100, 2 * dayMs, .cancelled, some 500, some 501, 0⟩
      (by decide) rfl rfl rfl⟩

/-! ## C8: booking / availability round trip -/

/-- C8: immediately after a successful `book(client1, w1, coach1, slot, D)`,
`getCoachAvailableTimeSlots` for that coach and date flags `slot` as booked;
after a successful `cancel` of that booking the same slot is reported free
again; and in general a slot is flagged booked only by a non-cancelled booking
of that coach at exactly that date and slot — cancelled bookings never mark a
slot as booked. -/
theorem C8_availability_round_trip
    (env : Env) (fails1 : SavePoint → Bool) (st st1 : Store)
    (client1 w1 coach1 slot : Nat) (D : DateInput) (t : Int) (bk : Booking)
    (hparse : workoutParseAndValidateDate env D = .ok t)
    (hmid : localMidnight env.tz t = t)
    (hfresh : ∀ x ∈ st.bookings, x.id ≠ st.nextId + 2)
    (hbook : bookWorkout env fails1 st client1 w1 coach1 slot D = (st1, .ok bk)) :
    (∃ l, getCoachAvailableTimeSlots env st1 coach1 t = .ok l ∧
      ∀ s ∈ l, s.id = slot → s.isBooked = true) ∧
    (∀ st2 bk2 uid, cancelBooking env st1 bk.id uid = (st2, .ok bk2) →
      ∃ l, getCoachAvailableTimeSlots env st2 coach1 t = .ok l ∧
        ∀ s ∈ l, s.id = slot → s.isBooked = false) ∧
    (∀ env2 stq co d l, getCoachAvailableTimeSlots env2 stq co d = .ok l →
      ∀ s ∈ l, s.isBooked = true →
        ∃ x ∈ stq.bookings, x.coachId = co ∧ x.date = d ∧ x.timeSlotId = s.id ∧
          x.state ≠ BookingState.cancelled) := by
  obtain ⟨t', sl, heq, hco, hsl, hpass, hcc, hcl, hbkeq, hst1⟩ :=
    bookWorkout_ok_inv env fails1 st client1 w1 coach1 slot D st1 bk hbook
  have ht : t = t' := by
    have h2 := heq
    rw [hparse] at h2
    exact Except.ok.inj h2
  subst ht
  subst hbkeq
  have hbookings1 : st1.bookings = st.bookings ++
      [⟨st.nextId + 2, client1, coach1, w1, slot, t, .scheduled,
        some st.nextId, some (st.nextId + 1), env.nowMs⟩] := by rw [hst1]
  have htimeslots1 : st1.timeSlots = st.timeSlots := by rw [hst1]
  have hslmem : sl ∈ st.timeSlots := by
    have := List.mem_of_find?_eq_some hsl
    exact this
  have hne : st.timeSlots ≠ [] := List.ne_nil_of_mem hslmem
  have hccM : st.bookings.filter (fun b => decide (b.coachId = coach1 ∧
      b.timeSlotId = slot ∧ startOfDayOf env.tz t ≤ b.date ∧
      b.date < endOfDayOf env.tz t ∧ b.state ≠ BookingState.cancelled)) = [] := hcc
  have hccAll := List.filter_eq_nil_iff.mp hccM
  refine ⟨?_, ?_, ?_⟩
  · -- after book: the slot is flagged booked
    unfold getCoachAvailableTimeSlots
    rw [if_neg (not_not_intro hco), if_neg (htimeslots1 ▸ hne)]
    refine ⟨_, rfl, ?_⟩
    intro s hs hsid
    obtain ⟨cs, hcs, hcseq⟩ := List.mem_map.mp hs
    subst hcseq
    simp only [List.any_eq_true]
    refine ⟨⟨st.nextId + 2, client1, coach1, w1, slot, t, .scheduled,
      some st.nextId, some (st.nextId + 1), env.nowMs⟩, ?_, ?_⟩
    · rw [List.mem_filter]
      refine ⟨?_, ?_⟩
      · rw [hbookings1]
        exact List.mem_append_right _ (List.mem_singleton.mpr rfl)
      · apply decide_eq_true
        exact ⟨rfl, rfl, by simp [activeStates]⟩
    · apply decide_eq_true
      exact ⟨hsid.symm, by simp [activeStates]⟩
  · -- after cancel: the slot is free again
    intro st2 bk2 uid hcancel
    obtain ⟨b, hfb, hbstate, hbhrs, hbk2, hst2⟩ :=
      cancelBooking_ok_inv env st1 _ uid st2 bk2 hcancel
    have hfind : findBooking st1 (st.nextId + 2) =
        some ⟨st.nextId + 2, client1, coach1, w1, slot, t, .scheduled,
          some st.nextId, some (st.nextId + 1), env.nowMs⟩ := by
      unfold findBooking
      rw [hbookings1, List.find?_append]
      have h1 : st.bookings.find? (fun x => decide (x.id = st.nextId + 2)) = none := by
        rw [List.find?_eq_none]
        intro x hx
        simp [hfresh x hx]
      rw [h1]
      simp
    have hbeq : b = ⟨st.nextId + 2, client1, coach1, w1, slot, t, .scheduled,
        some st.nextId, some (st.nextId + 1), env.nowMs⟩ :=
      Option.some.inj (hfb.symm.trans hfind)
    subst hbeq
    subst hst2
    have hmap : st1.bookings.map (fun x => if x.id = st.nextId + 2 then
        { (⟨st.nextId + 2, client1, coach1, w1, slot, t, .scheduled,
           some st.nextId, some (st.nextId + 1), env.nowMs⟩ : Booking) with
          state := BookingState.cancelled } else x) =
        st.bookings ++
        [⟨st.nextId + 2, client1, coach1, w1, slot, t, .cancelled,
          some st.nextId, some (st.nextId + 1), env.nowMs⟩] := by
      rw [hbookings1, List.map_append]
      congr 1
      · have hid : ∀ x ∈ st.bookings,
            (fun x => if x.id = st.nextId + 2 then
              { (⟨st.nextId + 2, client1, coach1, w1, slot, t, .scheduled,
                 some st.nextId, some (st.nextId + 1), env.nowMs⟩ : Booking) with
                state := BookingState.cancelled } else x) x = x := by
          intro x hx
          simp [hfresh x hx]
        rw [List.map_congr_left hid]
        exact List.map_id st.bookings
      · simp
    unfold getCoachAvailableTimeSlots
    rw [if_neg (not_not_intro hco)]
    rw [if_neg (show ¬ (({ st1 with bookings := st1.bookings.map (fun x =>
        if x.id = st.nextId + 2 then
          { (⟨st.nextId + 2, client1, coach1, w1, slot, t, .scheduled,
             some st.nextId, some (st.nextId + 1), env.nowMs⟩ : Booking) with
            state := BookingState.cancelled } else x) } : Store).timeSlots = []) from
      htimeslots1 ▸ hne)]
    refine ⟨_, rfl, ?_⟩
    intro s hs hsid
    obtain ⟨cs, hcs, hcseq⟩ := List.mem_map.mp hs
    subst hcseq
    simp only [List.any_eq_false]
    intro x hx
    rw [List.mem_filter] at hx
    obtain ⟨hxmem, hxpred⟩ := hx
    rw [decide_eq_true_eq] at hxpred
    obtain ⟨hxcoach, hxdate, hxstate⟩ := hxpred
    show ¬ _ = true
    rw [decide_eq_true_eq]
    intro hcon
    obtain ⟨hxslot, _⟩ := hcon
    -- x is a booking of coach1 at (slot, t) in the post-cancel store
    have hxmem' : x ∈ st.bookings ++
        [(⟨st.nextId + 2, client1, coach1, w1, slot, t, .cancelled,
          some st.nextId, some (st.nextId + 1), env.nowMs⟩ : Booking)] := by
      rw [← hmap]
      exact hxmem
    rcases List.mem_append.mp hxmem' with hmem | hmem
    · -- an old booking would have tripped the conflict check at book time
      have hstate_ne : x.state ≠ BookingState.cancelled := by
        intro hcst
        rw [hcst] at hxstate
        simp [activeStates] at hxstate
      have := hccAll x hmem
      rw [decide_eq_true_eq] at this
      apply this
      refine ⟨hxcoach, hxslot.trans hsid, ?_, ?_, hstate_ne⟩
      · rw [hxdate]
        exact le_of_eq hmid
      · rw [hxdate]
        show t < localMidnight env.tz t + 86399999
        omega
    · -- the cancelled booking no longer has an active state
      have hxeq := List.mem_singleton.mp hmem
      rw [hxeq] at hxstate
      simp [activeStates] at hxstate
  · -- cancelled bookings never mark a slot booked
    intro env2 stq co d l h s hs hbooked
    unfold getCoachAvailableTimeSlots at h
    split at h
    · exact absurd h (by simp)
    · split at h
      · exact absurd h (by simp)
      · simp only [Except.ok.injEq] at h
        subst h
        obtain ⟨cs, hcs, hcseq⟩ := List.mem_map.mp hs
        subst hcseq
        simp only [List.any_eq_true] at hbooked
        obtain ⟨x, hxmem, hxpred⟩ := hbooked
        rw [List.mem_filter] at hxmem
        obtain ⟨hxm, hxq⟩ := hxmem
        rw [decide_eq_true_eq] at hxq hxpred
        obtain ⟨hxcoach, hxdate, hxstate⟩ := hxq
        obtain ⟨hxslot, _⟩ := hxpred
        refine ⟨x, hxm, hxcoach, hxdate, hxslot, ?_⟩
        intro hcst
        rw [hcst] at hxstate
        simp [activeStates] at hxstate

/-- Witness for C8 at the concrete booking of slot 100 by client 1: booked
after `book`, free again after `cancel`. -/
theorem C8_availability_round_trip_witness :
    (∃ l, getCoachAvailableTimeSlots envW stW1 10 (2 * dayMs) = .ok l ∧
      ∀ s ∈ l, s.id = 100 → s.isBooked = true) ∧
    (∃ l, getCoachAvailableTimeSlots envW stW2 10 (2 * dayMs) = .ok l ∧
      ∀ s ∈ l, s.id = 100 → s.isBooked = false) := by
  have H := C8_availability_round_trip envW noFail stW stW1 1 200 10 100 (.ymd 2)
    (2 * dayMs) bkW (by decide) (by decide) (by decide) (by decide)
  exact ⟨H.1, H.2.1 stW2 ⟨502, 1, 10, 200, 100, 2 * dayMs, .cancelled, some 500, some 501, 0⟩
    1 (by decide)⟩

/-! ## C10: feedback statistics count the empty pre-created ledgers -/

/-- C10: a successful `book` (with distinct client and coach) raises the
coach's `totalReviews` by exactly one — the pre-created empty client→coach
ledger is counted — while the 1–5 histogram and the average rating, computed
only from ledgers with at least one entry, are unchanged; consequently a coach
whose only ledgers come from bookings with no submitted feedback reports
`totalReviews` 1 with `averageRating` 0 and an all-zero distribution, so
`totalReviews` exceeds the histogram total. -/
theorem C10_stats_include_empty_ledgers
    (env : Env) (fails : SavePoint → Bool) (st st1 : Store)
    (clientId workoutId coachId timeSlotId : Nat) (date : DateInput) (bk : Booking)
    (hneq : clientId ≠ coachId)
    (hbook : bookWorkout env fails st clientId workoutId coachId timeSlotId date =
      (st1, .ok bk)) :
    (getCoachFeedbackStats st1 coachId).totalReviews =
      (getCoachFeedbackStats st coachId).totalReviews + 1 ∧
    (getCoachFeedbackStats st1 coachId).ratingDistribution =
      (getCoachFeedbackStats st coachId).ratingDistribution ∧
    (getCoachFeedbackStats st1 coachId).averageRating =
      (getCoachFeedbackStats st coachId).averageRating ∧
    (st.feedbacks.filter (fun f => decide (f.toId = coachId)) = [] →
      getCoachFeedbackStats st1 coachId = ⟨0, 1, ⟨0, 0, 0, 0, 0⟩⟩ ∧
      (getCoachFeedbackStats st1 coachId).ratingDistribution.sum <
        (getCoachFeedbackStats st1 coachId).totalReviews) := by
  obtain ⟨t', sl, heq, hco, hsl, hpass, hcc, hcl, hbkeq, hst1⟩ :=
    bookWorkout_ok_inv env fails st clientId workoutId coachId timeSlotId date st1 bk hbook
  have hfilter : st1.feedbacks.filter (fun f => decide (f.toId = coachId)) =
      st.feedbacks.filter (fun f => decide (f.toId = coachId)) ++
      [⟨st.nextId, clientId, coachId, []⟩] := by
    rw [hst1]
    show (st.feedbacks ++ _).filter _ = _
    rw [List.filter_append]
    congr 1
    simp [hneq]
  unfold getCoachFeedbackStats
  rw [hfilter]
  by_cases hF : st.feedbacks.filter (fun f => decide (f.toId = coachId)) = []
  · rw [hF]
    refine ⟨by simp, by simp [statsStep], by simp [statsStep], ?_⟩
    intro _
    refine ⟨by simp [statsStep], by simp [statsStep, RatingDist.sum]⟩
  · rw [if_neg (by simp), if_neg (by simpa using hF)]
    rw [List.foldl_append]
    refine ⟨by simp, by simp [statsStep], by simp [statsStep], ?_⟩
    intro hF'
    exact absurd hF' hF

/-- Witness for C10: after the concrete booking, coach 10 has one counted
review, average 0, and an all-zero histogram whose total is below
`totalReviews`. -/
theorem C10_stats_include_empty_ledgers_witness :
    getCoachFeedbackStats stW1 10 = ⟨0, 1, ⟨0, 0, 0, 0, 0⟩⟩ ∧
    (getCoachFeedbackStats stW1 10).ratingDistribution.sum <
      (getCoachFeedbackStats stW1 10).totalReviews :=
  (C10_stats_include_empty_ledgers envW noFail stW stW1 1 200 10 100 (.ymd 2) bkW
    (by decide) (by decide)).2.2.2 (by decide)

/-! ## C6: "most recent" reads the oldest entry -/

def env6 : Env :=
  { nowMs := 2 * dayMs, tz := 0, monthStart := 0, coaches := [10], users := [1, 10] }

def st6 : Store :=
  { timeSlots := [slotA], workouts := [⟨200, 300, 10⟩],
    bookings := [⟨500, 1, 10, 200, 100, 0, .scheduled, some 400, some 401, 0⟩],
    feedbacks := [⟨400, 1, 10, [⟨"first", 1, 0⟩]⟩, ⟨401, 10, 1, []⟩], nextId := 600 }

def st6' : Store := (addFeedback env6 st6 1 500 "second" 5).1

/-- C6 (code bug): `addFeedback` appends the new entry (rating 5) at the END
of ledger 400's history, yet the paginated view reports `history[0]` — the
OLDEST entry (rating 1) — as `latestFeedback`, averages the page on it, and
the statistics histogram buckets it, contradicting both the spec's "most
recent rating" and the code's own comment "most recent feedback entry (first
in the array)". -/
theorem C6_latest_feedback_is_oldest_entry :
    findFeedbackDoc st6' 400 =
      some ⟨400, 1, 10, [⟨"first", 1, 0⟩, ⟨"second", 5, 2 * dayMs⟩]⟩ ∧
    (getFeedbackForUserCoach env6 st6' 10 10 1 "rating").toOption.map
        (fun p => p.feedback.map (fun f => f.latestFeedback)) =
      some [some ⟨"first", 1, 0⟩] ∧
    (getFeedbackForUserCoach env6 st6' 10 10 1 "rating").toOption.map
        (fun p => p.feedback.map ratingKey) = some [1] ∧
    (getCoachFeedbackStats st6' 10).ratingDistribution = ⟨0, 0, 0, 0, 1⟩ ∧
    (⟨"first", 1, 0⟩ : FeedbackEntry) ≠ ⟨"second", 5, 2 * dayMs⟩ := by
  decide

/-! ## C9: the availability search signals distinguishable errors -/

theorem insertSlot_ne_nil (s : TimeSlot) (l : List TimeSlot) : insertSlot s l ≠ [] := by
  cases l with
  | nil => simp [insertSlot]
  | cons t ts =>
    unfold insertSlot
    split <;> simp

theorem sortSlots_eq_nil_iff (l : List TimeSlot) : sortSlots l = [] ↔ l = [] := by
  cases l with
  | nil => simp [sortSlots]
  | cons s ss =>
    unfold sortSlots
    simp only [List.cons_ne_nil, iff_false]
    exact insertSlot_ne_nil s (sortSlots ss)

/-- C9: the availability search never answers these situations with an empty
list; each is a distinct 404: the empty slot catalog, a today query where
every slot's start time has already passed, and a requested time slot missing
from the otherwise-valid set — and a successful search always carries a
non-empty record list. -/
theorem C9_search_distinguishable_errors (env : Env) (st : Store)
    (wo co ts : Option Nat) (d : Option DateInput) (sd : Int)
    (hd : searchParseDate env d = .ok sd) :
    (st.timeSlots = [] →
      searchWorkoutUsingFilters env st wo co ts d =
        .error ⟨404, "No time slots available"⟩) ∧
    (st.timeSlots ≠ [] → validSlotsFor env st sd = [] →
      searchWorkoutUsingFilters env st wo co ts d =
        .error ⟨404, "No available time slots for today"⟩) ∧
    (∀ tid, ts = some tid → validSlotsFor env st sd ≠ [] →
      (validSlotsFor env st sd).find? (fun s => decide (s.id = tid)) = none →
      searchWorkoutUsingFilters env st wo co ts d =
        .error ⟨404, "Selected time slot is not available"⟩) ∧
    (∀ l, searchWorkoutUsingFilters env st wo co ts d = .ok l → l ≠ []) ∧
    ((⟨404, "No time slots available"⟩ : HttpError) ≠
        ⟨404, "No available time slots for today"⟩ ∧
      (⟨404, "No time slots available"⟩ : HttpError) ≠
        ⟨404, "Selected time slot is not available"⟩ ∧
      (⟨404, "No available time slots for today"⟩ : HttpError) ≠
        ⟨404, "Selected time slot is not available"⟩) := by
  refine ⟨?_, ?_, ?_, ?_, by decide⟩
  · intro h0
    unfold searchWorkoutUsingFilters
    rw [hd]
    simp only []
    rw [if_pos ((sortSlots_eq_nil_iff st.timeSlots).mpr h0)]
  · intro h0 hv
    unfold searchWorkoutUsingFilters
    rw [hd]
    simp only []
    rw [if_neg (fun hc => h0 ((sortSlots_eq_nil_iff st.timeSlots).mp hc)), if_pos hv]
  · intro tid hts hvne hfind
    unfold searchWorkoutUsingFilters
    rw [hd]
    simp only []
    have hsne : ¬ sortSlots st.timeSlots = [] := by
      intro hc
      apply hvne
      unfold validSlotsFor
      rw [hc]
      split <;> simp
    rw [if_neg hsne, if_neg hvne, hts]
    rw [show (match some tid with
        | some tid => ((validSlotsFor env st sd).find? (fun s => decide (s.id = tid))).isNone
        | none => false) =
        ((validSlotsFor env st sd).find? (fun s => decide (s.id = tid))).isNone from rfl]
    rw [hfind]
    simp
  · intro l h
    unfold searchWorkoutUsingFilters at h
    rw [hd] at h
    simp only [] at h
    split at h
    · exact absurd h (by simp)
    · split at h
      · exact absurd h (by simp)
      · split at h
        · exact absurd h (by simp)
        · split at h
          · exact absurd h (by simp)
          · split at h
            · exact absurd h (by simp)
            · split at h
              · exact absurd h (by simp)
              · simp only [Except.ok.injEq] at h
                subst h
                intro hc
                rw [List.map_eq_nil_iff] at hc
                exact absurd hc (by assumption)

def stE : Store := { timeSlots := [], workouts := [⟨200, 300, 10⟩], bookings := [],
                     feedbacks := [], nextId := 500 }

/-- Witness for C9: an empty catalog, a today query at 09:30 against a lone
09:00 slot, and a request for unknown slot 999 each produce their own 404,
and a successful search returns a non-empty list. -/
theorem C9_search_distinguishable_errors_witness :
    searchWorkoutUsingFilters envT stE none none none none =
      .error ⟨404, "No time slots available"⟩ ∧
    searchWorkoutUsingFilters envT stT none none none none =
      .error ⟨404, "No available time slots for today"⟩ ∧
    searchWorkoutUsingFilters envW stW none none (some 999) (some (.ymd 2)) =
      .error ⟨404, "Selected time slot is not available"⟩ ∧
    ([⟨10, 200, 300, some 100, 2 * dayMs, []⟩, ⟨11, 201, 300, some 100, 2 * dayMs, []⟩] :
      List AvailRecord) ≠ [] := by
  refine ⟨?_, ?_, ?_, ?_⟩
  · exact (C9_search_distinguishable_errors envT stE none none none none envT.nowMs
      (by decide)).1 (by decide)
  · exact (C9_search_distinguishable_errors envT stT none none none none envT.nowMs
      (by decide)).2.1 (by decide) (by decide)
  · exact (C9_search_distinguishable_errors envW stW none none (some 999)
      (some (.ymd 2)) (2 * dayMs) (by decide)).2.2.1 999 rfl (by decide) (by decide)
  · exact (C9_search_distinguishable_errors envW stW (some 300) none none
      (some (.ymd 2)) (2 * dayMs) (by decide)).2.2.2.1
      [⟨10, 200, 300, some 100, 2 * dayMs, []⟩, ⟨11, 201, 300, some 100, 2 * dayMs, []⟩]
      (by decide)
